import Mathlib

/-!
Shallow embedding of the SOP point-of-sale backend (Python/FastAPI/SQLModel)
and verification of its specification claims.

Modelling conventions:
* Python `float` prices are modelled as `Rat` (the code performs exact
  arithmetic expressions on them; IEEE rounding is not the subject of any
  claim here).
* Python `int` quantities are modelled as `Int` (Python ints are unbounded
  and the code can assign negative values to ORM fields without a database
  check).
* `datetime` values are modelled as abstract `Nat` timestamps; ISO-string
  parsing (`datetime.fromisoformat`) is an external collaborator and the
  claims under verification never depend on the parse itself, only on the
  range comparison performed after it.
* `HTTPException(status_code, detail)` is modelled by the structure
  `HTTPException` below; raising is modelled with `Except`.
* The SQLAlchemy session is modelled by explicit state passing: a service
  function returns its `Except` result together with the database state
  after the call; `session.rollback()` on an error path returns the
  original state.
-/

namespace SOP

/-- Roles from app/models/user.py (`UserRole`). -/
inductive UserRole where
  | user
  | admin
deriving DecidableEq, Repr

/-- Statuses from app/models/user.py (`UserStatus`). -/
inductive UserStatus where
  | active
  | suspended
  | banned
deriving DecidableEq, Repr

/-- User row, from app/models/user.py (fields not used by the verified
operations are omitted). -/
structure User where
  id : Nat
  username : String
  role : UserRole
  status : UserStatus
deriving DecidableEq, Repr

/-- Product row, from app/models/product.py. -/
structure Product where
  id : Nat
  user_id : Nat
  name : String
  barcode : String
  category : Option String
  quantity : Int
  price : Rat
  threshold : Int
  description : Option String
  created_at : Nat
deriving DecidableEq, Repr

/-- Invoice row, from app/models/invoice.py. -/
structure Invoice where
  id : Nat
  user_id : Nat
  customer_name : Option String
  total_price : Rat
  created_at : Nat
deriving DecidableEq, Repr

/-- Invoice item row, from app/models/invoice_item.py. -/
structure InvoiceItem where
  id : Nat
  invoice_id : Nat
  product_id : Nat
  quantity : Int
  unit_price : Rat
deriving DecidableEq, Repr

/-- Request schema for one invoice line, from app/schemas/invoice_item.py
(`InvoiceItemCreate`).  Note that in the source `unit_price` is a required
field (`Field(ge=0.0)` with no default), so it is always present. -/
structure InvoiceItemCreate where
  product_id : Nat
  quantity : Int
  unit_price : Rat
deriving DecidableEq, Repr

/-- Request schema for invoice creation, from app/schemas/invoice.py
(`InvoiceCreate`). -/
structure InvoiceCreate where
  customer_name : Option String
  items : List InvoiceItemCreate
deriving DecidableEq, Repr

/-- FastAPI `HTTPException` as raised throughout the source. -/
structure HTTPException where
  status_code : Nat
  detail : String
deriving DecidableEq, Repr

/-- Database state: the committed rows visible to a request, together with
the primary-key counters the storage assigns on insert. -/
structure DB where
  products : List Product
  invoices : List Invoice
  invoice_items : List InvoiceItem
  next_invoice_id : Nat
  next_item_id : Nat
deriving DecidableEq, Repr

/-! ### app/utils/auth_utils.py -/

/-- `is_owner_or_admin` from app/utils/auth_utils.py:
`user.role == UserRole.ADMIN or user.id == resource_user_id`. -/
def is_owner_or_admin (user : User) (resource_user_id : Nat) : Bool :=
  user.role == UserRole.admin || user.id == resource_user_id

/-- `check_ownership_or_admin` from app/utils/auth_utils.py: raises 403
unless the current user is admin or owns the resource. -/
def check_ownership_or_admin (current_user : User) (resource_user_id : Nat)
    (resource_name : String) : Except HTTPException Unit :=
  if current_user.role ≠ UserRole.admin ∧ current_user.id ≠ resource_user_id then
    .error ⟨403, "Not authorized to access this " ++ resource_name⟩
  else
    .ok ()

/-- `check_admin_access` from app/utils/auth_utils.py. -/
def check_admin_access (current_user : User) (action : String) :
    Except HTTPException Unit :=
  if current_user.role ≠ UserRole.admin then
    .error ⟨403, "Admin access required to " ++ action⟩
  else
    .ok ()

/-- `check_resource_ownership` from app/utils/auth_utils.py.  The Python
function receives any ORM object and reads `getattr(resource, user_id_field,
None)`; the accessor argument `user_id_field` models that lookup, returning
`none` when the attribute is absent (the 500 branch). -/
def check_resource_ownership {α : Type} (current_user : User)
    (resource : Option α) (resource_name : String)
    (user_id_field : α → Option Nat) : Except HTTPException α :=
  match resource with
  | none => .error ⟨404, resource_name.capitalize ++ " not found"⟩
  | some r =>
    match user_id_field r with
    | none => .error ⟨500, "Resource ownership validation failed"⟩
    | some resource_user_id =>
      match check_ownership_or_admin current_user resource_user_id resource_name with
      | .error e => .error e
      | .ok _ => .ok r

/-! ### app/utils/validation_utils.py -/

/-- `validate_pagination_params` from app/utils/validation_utils.py. -/
def validate_pagination_params (skip limit : Int) : Except HTTPException Unit :=
  if skip < 0 then
    .error ⟨400, "Skip parameter must be non-negative"⟩
  else if limit ≤ 0 ∨ limit > 1000 then
    .error ⟨400, "Limit parameter must be between 1 and 1000"⟩
  else
    .ok ()

/-- `validate_non_negative_number` from app/utils/validation_utils.py,
specialised to a present value (the `None` short-circuit is handled at the
call sites in the model). -/
def validate_non_negative_number (value : Rat) (field_name : String) :
    Except HTTPException Unit :=
  if value < 0 then
    .error ⟨400, field_name ++ " must be greater than or equal to 0"⟩
  else
    .ok ()

/-! ### app/utils/datetime.py -/

/-- `get_date_range_filter` from app/utils/datetime.py, over already-parsed
timestamps (`parse_date_string` wraps the external `datetime.fromisoformat`;
only the range comparison is relevant to the claims). -/
def get_date_range_filter (start_date end_date : Option Nat) :
    Except HTTPException (Option Nat × Option Nat) :=
  match start_date, end_date with
  | some s, some e =>
    if s > e then
      .error ⟨400, "Start date must be before end date"⟩
    else
      .ok (some s, some e)
  | s, e => .ok (s, e)

/-! ### app/services/product_service.py -/

/-- `get_product_by_id` from app/services/product_service.py: first row of
`select(Product).where(Product.id == product_id)`. -/
def get_product_by_id (db : DB) (product_id : Nat) : Option Product :=
  db.products.find? (fun p => p.id == product_id)

/-! ### app/services/invoice_service.py — `create_invoice` -/

/-- Entry of the `validated_items` list built by the validation loop of
`create_invoice` (the Python dict with keys product/quantity/unit_price/
item_total). -/
structure ValidatedItem where
  product : Product
  quantity : Int
  unit_price : Rat
  item_total : Rat
deriving DecidableEq, Repr

/-- Validation loop of `create_invoice` (app/services/invoice_service.py,
lines 45-79): for each requested line, resolve the product (400 if absent),
authorize (403 unless admin or owner), check stock (400 if
`product.quantity < item.quantity`), compute the effective unit price
(caller value if truthy, else product price) and the line total, and
accumulate the validated items and the running total price. -/
def validate_invoice_items (db : DB) (current_user : User) :
    List InvoiceItemCreate → Except HTTPException (List ValidatedItem × Rat)
  | [] => .ok ([], 0)
  | item_data :: rest =>
    match get_product_by_id db item_data.product_id with
    | none =>
      .error ⟨400, "Product with ID " ++ toString item_data.product_id ++ " not found"⟩
    | some product =>
      if current_user.role ≠ UserRole.admin ∧ product.user_id ≠ current_user.id then
        .error ⟨403, "Not authorized to sell product: " ++ product.name⟩
      else if product.quantity < item_data.quantity then
        .error ⟨400, "Insufficient stock for product " ++ product.name ++
          ". Available: " ++ toString product.quantity ++
          ", Requested: " ++ toString item_data.quantity⟩
      else
        let unit_price := if item_data.unit_price ≠ 0 then item_data.unit_price else product.price
        let item_total := unit_price * (item_data.quantity : Rat)
        match validate_invoice_items db current_user rest with
        | .error e => .error e
        | .ok (vs, total) =>
          .ok (⟨product, item_data.quantity, unit_price, item_total⟩ :: vs, item_total + total)

/-- One iteration of the mutation loop of `create_invoice` (lines 92-104):
insert the invoice item row and deduct the sold quantity from the product
row. -/
def apply_validated_item (invoice_id : Nat) (db : DB) (v : ValidatedItem) : DB :=
  { db with
    invoice_items := db.invoice_items ++
      [⟨db.next_item_id, invoice_id, v.product.id, v.quantity, v.unit_price⟩],
    next_item_id := db.next_item_id + 1,
    products := db.products.map (fun p =>
      if p.id = v.product.id then { p with quantity := p.quantity - v.quantity } else p) }

/-- `create_invoice` from app/services/invoice_service.py: validate every
line first; only then insert the invoice header, insert the items and
deduct stock, and commit.  Any raised `HTTPException` rolls the session
back, so the error paths return the caller's database state unchanged.
`now` is the `created_at` timestamp the storage assigns. -/
def create_invoice (db : DB) (invoice_data : InvoiceCreate) (current_user : User)
    (now : Nat) : Except HTTPException Invoice × DB :=
  match validate_invoice_items db current_user invoice_data.items with
  | .error e => (.error e, db)
  | .ok (validated_items, total_price) =>
    let db_invoice : Invoice :=
      ⟨db.next_invoice_id, current_user.id, invoice_data.customer_name, total_price, now⟩
    let db1 : DB :=
      { db with
        invoices := db.invoices ++ [db_invoice],
        next_invoice_id := db.next_invoice_id + 1 }
    let db2 := validated_items.foldl (apply_validated_item db_invoice.id) db1
    (.ok db_invoice, db2)

/-! ### app/services/invoice_service.py — read paths -/

/-- Insertion step for the `ORDER BY created_at DESC` applied to invoice
listings. -/
def insert_by_created_at_desc (i : Invoice) : List Invoice → List Invoice
  | [] => [i]
  | j :: rest =>
    if i.created_at ≥ j.created_at then i :: j :: rest
    else j :: insert_by_created_at_desc i rest

/-- `ORDER BY created_at DESC` on an invoice result set. -/
def order_by_created_at_desc : List Invoice → List Invoice
  | [] => []
  | i :: rest => insert_by_created_at_desc i (order_by_created_at_desc rest)

/-- SQL `ORDER BY ... OFFSET skip LIMIT limit` applied to a result set
(the generated SQL orders before paginating regardless of the order the
SQLAlchemy methods were chained in). -/
def paginate (skip limit : Int) (rows : List Invoice) : List Invoice :=
  ((order_by_created_at_desc rows).drop skip.toNat).take limit.toNat

/-- `get_all_invoices` from app/services/invoice_service.py (lines 149-181):
validate pagination, then restrict to the user's invoices only when
`not is_owner_or_admin(current_user, current_user.id)`, then paginate. -/
def get_all_invoices (db : DB) (current_user : User) (skip limit : Int) :
    Except HTTPException (List Invoice) :=
  match validate_pagination_params skip limit with
  | .error e => .error e
  | .ok _ =>
    let rows := db.invoices
    let rows :=
      if ¬ is_owner_or_admin current_user current_user.id then
        rows.filter (fun i => i.user_id == current_user.id)
      else rows
    .ok (paginate skip limit rows)

/-- `get_invoices_by_user_id` from app/services/invoice_service.py (lines
184-217): admin check first, then pagination validation, then the query. -/
def get_invoices_by_user_id (db : DB) (user_id : Nat) (current_user : User)
    (skip limit : Int) : Except HTTPException (List Invoice) :=
  match check_admin_access current_user "view other users' invoices" with
  | .error e => .error e
  | .ok _ =>
    match validate_pagination_params skip limit with
    | .error e => .error e
    | .ok _ =>
      .ok (paginate skip limit (db.invoices.filter (fun i => i.user_id == user_id)))

/-- Case-insensitive SQL `ILIKE '%pat%'` containment used by the
customer-name filter. -/
def ilike_contains (hay pat : String) : Bool :=
  (hay.toLower.splitOn pat.toLower).length ≥ 2

/-- Filters dictionary consumed by the service-level `search_invoices`
(the keys it reads: customer_name, min_total, max_total, start_date,
end_date; timestamps already parsed, see `get_date_range_filter`). -/
structure InvoiceSearchFilters where
  customer_name : Option String
  min_total : Option Rat
  max_total : Option Rat
  start_date : Option Nat
  end_date : Option Nat
deriving DecidableEq, Repr

/-- `search_invoices` from app/services/invoice_service.py (lines 299-359):
pagination validation, the (never-applied) owner restriction, the optional
filters, then pagination.  A SQL comparison against a NULL column is not
satisfied, hence the `Option` matches on `customer_name`. -/
def search_invoices (db : DB) (filters : InvoiceSearchFilters)
    (current_user : User) (skip limit : Int) :
    Except HTTPException (List Invoice) :=
  match validate_pagination_params skip limit with
  | .error e => .error e
  | .ok _ =>
    let rows := db.invoices
    let rows :=
      if ¬ is_owner_or_admin current_user current_user.id then
        rows.filter (fun i => i.user_id == current_user.id)
      else rows
    let rows :=
      match filters.customer_name with
      | some n =>
        if n ≠ "" then
          rows.filter (fun i =>
            match i.customer_name with
            | some cn => ilike_contains cn n
            | none => false)
        else rows
      | none => rows
    let rows :=
      match filters.min_total with
      | some m => rows.filter (fun i => i.total_price ≥ m)
      | none => rows
    let rows :=
      match filters.max_total with
      | some m => rows.filter (fun i => i.total_price ≤ m)
      | none => rows
    match get_date_range_filter filters.start_date filters.end_date with
    | .error e => .error e
    | .ok (start_dt, end_dt) =>
      let rows :=
        match start_dt with
        | some s => rows.filter (fun i => i.created_at ≥ s)
        | none => rows
      let rows :=
        match end_dt with
        | some e => rows.filter (fun i => i.created_at ≤ e)
        | none => rows
      .ok (paginate skip limit rows)

/-! ### app/services/product_service.py — `update_product` -/

/-- `ProductUpdate` partial-update schema from app/schemas/product.py:
`none` models a field absent from `dict(exclude_unset=True)`. -/
structure ProductUpdate where
  name : Option String
  barcode : Option String
  category : Option String
  quantity : Option Int
  price : Option Rat
  threshold : Option Int
  description : Option String
deriving DecidableEq, Repr

/-- `check_unique_constraint` from app/utils/db_utils.py, instantiated at
`Product.barcode` as `update_product` uses it.  The Python guard
`if exclude_id:` is a truthiness test, so an exclusion id of 0 is not
applied. -/
def check_unique_constraint_barcode (db : DB) (field_value : String)
    (error_message : String) (exclude_id : Option Nat) :
    Except HTTPException Unit :=
  let rows := db.products.filter (fun p => p.barcode == field_value)
  let rows : List Product :=
    match exclude_id with
    | some i => if i ≠ 0 then rows.filter (fun p => p.id ≠ i) else rows
    | none => rows
  match rows.head? with
  | some _ => .error ⟨400, error_message⟩
  | none => .ok ()

/-- The `setattr` loop of `update_product`: overwrite exactly the fields
present in `dict(exclude_unset=True)`. -/
def apply_product_update (p : Product) (u : ProductUpdate) : Product :=
  { p with
    name := u.name.getD p.name,
    barcode := u.barcode.getD p.barcode,
    category := match u.category with | some c => some c | none => p.category,
    quantity := u.quantity.getD p.quantity,
    price := u.price.getD p.price,
    threshold := u.threshold.getD p.threshold,
    description := match u.description with | some d => some d | none => p.description }

/-- `update_product` from app/services/product_service.py: fetch, ownership
check, barcode-uniqueness check when the barcode changes, non-negativity
validation of the numeric fields being updated, apply the update and
commit.  Every error path rolls back, leaving the database unchanged. -/
def update_product (db : DB) (product_id : Nat) (product_data : ProductUpdate)
    (current_user : User) : Except HTTPException Product × DB :=
  let product? := get_product_by_id db product_id
  match check_resource_ownership current_user product? "product" (fun p : Product => some p.user_id) with
  | .error e => (.error e, db)
  | .ok product =>
    let barcode_check :=
      match product_data.barcode with
      | some b =>
        if b ≠ product.barcode then
          check_unique_constraint_barcode db b
            "Product with this barcode already exists" (some product_id)
        else .ok ()
      | none => .ok ()
    match barcode_check with
    | .error e => (.error e, db)
    | .ok _ =>
      let numeric_check : Except HTTPException Unit := do
        match product_data.quantity with
        | some q => validate_non_negative_number (q : Rat) "quantity"
        | none => pure ()
        match product_data.price with
        | some pr => validate_non_negative_number pr "price"
        | none => pure ()
        match product_data.threshold with
        | some t => validate_non_negative_number (t : Rat) "threshold"
        | none => pure ()
      match numeric_check with
      | .error e => (.error e, db)
      | .ok _ =>
        let updated := apply_product_update product product_data
        (.ok updated,
         { db with
           products := db.products.map (fun p => if p.id = product_id then updated else p) })

/-! ### app/routes/invoice.py — `search_invoices` route handler -/

/-- The GET `/invoices/` route handler `search_invoices` from
app/routes/invoice.py: builds the filters dictionary, validates the price
range, validates the date range, and only then calls the service.  The
route stores the price bounds under keys `min_price`/`max_price` which the
service never reads (it reads `min_total`/`max_total`), so they are passed
as absent; the service is called with its default pagination (0, 100). -/
def route_search_invoices (db : DB) (start_date end_date : Option Nat)
    (min_price max_price : Option Rat) (customer_name : Option String)
    (current_user : User) : Except HTTPException (List Invoice) :=
  let price_check : Except HTTPException Unit :=
    match min_price, max_price with
    | some a, some b =>
      if a > b then
        .error ⟨400, "Minimum price cannot be greater than maximum price"⟩
      else .ok ()
    | _, _ => .ok ()
  match price_check with
  | .error e => .error e
  | .ok _ =>
    let date_check : Except HTTPException Unit :=
      match start_date, end_date with
      | some s, some e =>
        if s > e then
          .error ⟨400, "Start date cannot be after end date"⟩
        else .ok ()
      | _, _ => .ok ()
    match date_check with
    | .error e => .error e
    | .ok _ =>
      search_invoices db
        ⟨customer_name, none, none, start_date, end_date⟩
        current_user 0 100

/-! ### Specification-side helper notions used by the claim statements -/

/-- Validation outcome of a single requested line, independent of its
position in the request: the error `create_invoice` would raise for this
line (`none` when the line passes product lookup, authorization and the
stock check). -/
def item_error (db : DB) (current_user : User) (item : InvoiceItemCreate) :
    Option HTTPException :=
  match get_product_by_id db item.product_id with
  | none =>
    some ⟨400, "Product with ID " ++ toString item.product_id ++ " not found"⟩
  | some product =>
    if current_user.role ≠ UserRole.admin ∧ product.user_id ≠ current_user.id then
      some ⟨403, "Not authorized to sell product: " ++ product.name⟩
    else if product.quantity < item.quantity then
      some ⟨400, "Insufficient stock for product " ++ product.name ++
        ". Available: " ++ toString product.quantity ++
        ", Requested: " ++ toString item.quantity⟩
    else none

/-- First validation error over a request's lines, in input order. -/
def first_item_error (db : DB) (current_user : User) :
    List InvoiceItemCreate → Option HTTPException
  | [] => none
  | item :: rest =>
    match item_error db current_user item with
    | some e => some e
    | none => first_item_error db current_user rest

/-- Effective unit price of a line: the caller-supplied value when truthy
(non-zero), otherwise the referenced product's current price. -/
def effective_unit_price (db : DB) (item : InvoiceItemCreate) : Rat :=
  match get_product_by_id db item.product_id with
  | some p => if item.unit_price ≠ 0 then item.unit_price else p.price
  | none => 0

/-- Amount a line contributes to the invoice total. -/
def line_total (db : DB) (item : InvoiceItemCreate) : Rat :=
  effective_unit_price db item * (item.quantity : Rat)

/-- Total quantity a request sells of one product (sum over the lines that
reference it). -/
def items_sold (items : List InvoiceItemCreate) (pid : Nat) : Int :=
  ((items.filter (fun l => l.product_id = pid)).map (fun l => l.quantity)).sum

/-- Observable fields of a stored invoice item (everything except the
storage-assigned primary key). -/
def item_fields (it : InvoiceItem) : Nat × Nat × Int × Rat :=
  (it.invoice_id, it.product_id, it.quantity, it.unit_price)

/-- Total quantity the mutation loop deducts from one product. -/
def sold_qty (vs : List ValidatedItem) (pid : Nat) : Int :=
  ((vs.filter (fun v => v.product.id = pid)).map (fun v => v.quantity)).sum

/-- Quantity sold of one product, computed over the observable projection
of a line list (product id, quantity, unit price). -/
def sold_triples (l : List (Nat × Int × Rat)) (pid : Nat) : Int :=
  ((l.filter (fun x => x.1 = pid)).map (fun x => x.2.1)).sum

/-! ### Concrete fixtures used to evaluate the model -/

/-- A regular (non-admin) shop user with id 1. -/
def userA : User := ⟨1, "alice", UserRole.user, UserStatus.active⟩

/-- A product owned by user 1, priced 5.00, with the given stock. -/
def prodP (qty : Int) : Product := ⟨1, 1, "P", "B-1", none, qty, 5, 0, none, 0⟩

/-- A database holding only `prodP qty`. -/
def dbP (qty : Int) : DB := ⟨[prodP qty], [], [], 1, 1⟩

/-- An empty database. -/
def dbEmpty : DB := ⟨[], [], [], 1, 1⟩

/-- An invoice owned by user 2. -/
def invB : Invoice := ⟨1, 2, none, 10, 0⟩

/-- A database holding only user 2's invoice `invB`. -/
def dbInvB : DB := ⟨[], [invB], [], 2, 1⟩

/-- A request line referencing the absent product id 2. -/
def badItem : InvoiceItemCreate := ⟨2, 1, 0⟩

/-- A request line for 3 units of product 1 at an explicit unit price 5. -/
def reqItem3 : InvoiceItemCreate := ⟨1, 3, 5⟩

/-- A request line for 3 units of product 1 with the falsy unit price 0. -/
def reqItemZero : InvoiceItemCreate := ⟨1, 3, 0⟩

/-! ### Lemmas about the validation loop -/

lemma get_product_by_id_id {db : DB} {pid : Nat} {p : Product}
    (h : get_product_by_id db pid = some p) : p.id = pid := by
  have := List.find?_some h
  simpa using this

lemma validate_invoice_items_error_iff (db : DB) (u : User) :
    ∀ (items : List InvoiceItemCreate) (e : HTTPException),
      validate_invoice_items db u items = .error e ↔
        first_item_error db u items = some e := by
  intro items
  induction items with
  | nil => intro e; simp [validate_invoice_items, first_item_error]
  | cons item rest ih =>
    intro e
    simp only [validate_invoice_items, first_item_error, item_error]
    cases hp : get_product_by_id db item.product_id with
    | none => simp
    | some product =>
      by_cases hauth : u.role ≠ UserRole.admin ∧ product.user_id ≠ u.id
      · simp [hauth]
      · by_cases hstock : product.quantity < item.quantity
        · simp [hauth, hstock]
        · simp only [if_neg hauth, if_neg hstock]
          cases hrest : validate_invoice_items db u rest with
          | error e' =>
            simp only [hrest]
            constructor
            · intro h
              injection h with h
              subst h
              exact (ih e').mp hrest
            · intro h
              have h3 := (ih e).mpr h
              rw [hrest] at h3
              injection h3 with h3
              rw [h3]
          | ok pr =>
            obtain ⟨vs, t⟩ := pr
            simp only [hrest]
            constructor
            · intro h; cases h
            · intro h
              have h3 := (ih e).mpr h
              rw [hrest] at h3
              cases h3

lemma first_item_error_append (db : DB) (u : User) :
    ∀ (pre rest : List InvoiceItemCreate),
      (∀ x ∈ pre, item_error db u x = none) →
      first_item_error db u (pre ++ rest) = first_item_error db u rest := by
  intro pre
  induction pre with
  | nil => intro rest _; rfl
  | cons x xs ih =>
    intro rest h
    have hx : item_error db u x = none := h x (by simp)
    simp only [List.cons_append, first_item_error, hx]
    exact ih rest (fun y hy => h y (by simp [hy]))

lemma first_item_error_isSome (db : DB) (u : User) :
    ∀ (items : List InvoiceItemCreate),
      (∃ it ∈ items, (item_error db u it).isSome) →
      ∃ it ∈ items, ∃ e, item_error db u it = some e ∧
        first_item_error db u items = some e := by
  intro items
  induction items with
  | nil => rintro ⟨it, hmem, _⟩; cases hmem
  | cons x xs ih =>
    rintro ⟨it, hmem, hsome⟩
    cases hx : item_error db u x with
    | some e =>
      exact ⟨x, by simp, e, hx, by simp [first_item_error, hx]⟩
    | none =>
      have hmem' : it ∈ xs := by
        rcases List.mem_cons.mp hmem with h | h
        · subst h; rw [hx] at hsome; cases hsome
        · exact h
      rcases ih ⟨it, hmem', hsome⟩ with ⟨it', hmem'', e, he, hfe⟩
      exact ⟨it', by simp [hmem''], e, he, by simp [first_item_error, hx, hfe]⟩

lemma validate_invoice_items_ok (db : DB) (u : User) :
    ∀ (items : List InvoiceItemCreate) (vs : List ValidatedItem) (t : Rat),
      validate_invoice_items db u items = .ok (vs, t) →
      vs.map (fun v => (v.product.id, v.quantity, v.unit_price)) =
        items.map (fun l => (l.product_id, l.quantity, effective_unit_price db l)) ∧
      t = (items.map (line_total db)).sum := by
  intro items
  induction items with
  | nil =>
    intro vs t h
    simp only [validate_invoice_items] at h
    injection h with h
    injection h with h1 h2
    subst h1; subst h2
    simp
  | cons item rest ih =>
    intro vs t h
    simp only [validate_invoice_items] at h
    cases hp : get_product_by_id db item.product_id with
    | none => rw [hp] at h; cases h
    | some product =>
      rw [hp] at h
      dsimp only at h
      by_cases hauth : u.role ≠ UserRole.admin ∧ product.user_id ≠ u.id
      · rw [if_pos hauth] at h; cases h
      · rw [if_neg hauth] at h
        by_cases hstock : product.quantity < item.quantity
        · rw [if_pos hstock] at h; cases h
        · rw [if_neg hstock] at h
          cases hrest : validate_invoice_items db u rest with
          | error e' => rw [hrest] at h; cases h
          | ok pr =>
            obtain ⟨vs', t'⟩ := pr
            rw [hrest] at h
            injection h with h
            injection h with h1 h2
            subst h1; subst h2
            rcases ih vs' t' hrest with ⟨ihmap, ihsum⟩
            have hid : product.id = item.product_id := get_product_by_id_id hp
            have heff : effective_unit_price db item =
                (if item.unit_price ≠ 0 then item.unit_price else product.price) := by
              simp [effective_unit_price, hp]
            constructor
            · simp only [List.map_cons, ihmap, hid, heff]
            · simp only [List.map_cons, List.sum_cons, ihsum, line_total, heff]

lemma foldl_apply_invoices (invoice_id : Nat) :
    ∀ (vs : List ValidatedItem) (d : DB),
      (vs.foldl (apply_validated_item invoice_id) d).invoices = d.invoices := by
  intro vs
  induction vs with
  | nil => intro d; rfl
  | cons v rest ih =>
    intro d
    simp only [List.foldl_cons, ih, apply_validated_item]

lemma foldl_apply_items (invoice_id : Nat) :
    ∀ (vs : List ValidatedItem) (d : DB),
      (vs.foldl (apply_validated_item invoice_id) d).invoice_items.map item_fields =
        d.invoice_items.map item_fields ++
          vs.map (fun v => (invoice_id, v.product.id, v.quantity, v.unit_price)) := by
  intro vs
  induction vs with
  | nil => intro d; simp
  | cons v rest ih =>
    intro d
    simp only [List.foldl_cons, ih, apply_validated_item, List.map_append, List.map_cons,
      List.map_nil, List.append_assoc, item_fields]
    rfl

lemma sold_qty_cons (v : ValidatedItem) (vs : List ValidatedItem) (pid : Nat) :
    sold_qty (v :: vs) pid =
      (if v.product.id = pid then v.quantity else 0) + sold_qty vs pid := by
  by_cases h : v.product.id = pid
  · simp [sold_qty, List.filter_cons, h]
  · simp [sold_qty, List.filter_cons, h]

lemma foldl_apply_products (invoice_id : Nat) :
    ∀ (vs : List ValidatedItem) (d : DB),
      (vs.foldl (apply_validated_item invoice_id) d).products =
        d.products.map (fun p => { p with quantity := p.quantity - sold_qty vs p.id }) := by
  intro vs
  induction vs with
  | nil =>
    intro d
    simp only [List.foldl_nil]
    have : ∀ p : Product, ({ p with quantity := p.quantity - sold_qty [] p.id }) = p := by
      intro p
      simp [sold_qty]
    calc d.products = d.products.map id := by simp
      _ = d.products.map (fun p => { p with quantity := p.quantity - sold_qty [] p.id }) := by
          apply List.map_congr_left
          intro p _
          rw [this p]
          rfl
  | cons v rest ih =>
    intro d
    simp only [List.foldl_cons, ih, apply_validated_item, List.map_map]
    apply List.map_congr_left
    intro p _
    by_cases h : p.id = v.product.id
    · simp only [Function.comp, if_pos h, sold_qty_cons, h]
      simp [Int.sub_sub]
    · have h2 : ¬ v.product.id = p.id := fun hh => h hh.symm
      simp only [Function.comp, if_neg h, sold_qty_cons, if_neg h2]
      simp

lemma sold_qty_eq_sold_triples (pid : Nat) :
    ∀ vs : List ValidatedItem,
      sold_qty vs pid =
        sold_triples (vs.map (fun v => (v.product.id, v.quantity, v.unit_price))) pid := by
  intro vs
  induction vs with
  | nil => rfl
  | cons v rest ih =>
    by_cases h : v.product.id = pid
    · simp only [sold_qty, sold_triples, List.map_cons, List.filter_cons] at ih ⊢
      simp [h, ih]
    · simp only [sold_qty, sold_triples, List.map_cons, List.filter_cons] at ih ⊢
      simp [h, ih]

lemma items_sold_eq_sold_triples (db : DB) (pid : Nat) :
    ∀ items : List InvoiceItemCreate,
      items_sold items pid =
        sold_triples
          (items.map (fun l => (l.product_id, l.quantity, effective_unit_price db l))) pid := by
  intro items
  induction items with
  | nil => rfl
  | cons l rest ih =>
    by_cases h : l.product_id = pid
    · simp only [items_sold, sold_triples, List.map_cons, List.filter_cons] at ih ⊢
      simp [h, ih]
    · simp only [items_sold, sold_triples, List.map_cons, List.filter_cons] at ih ⊢
      simp [h, ih]

/-! ### Claim theorems -/

/-- C1: if any line of an invoice-creation request fails validation
(product absent, actor neither owner nor admin, or requested quantity
exceeding stock), `create_invoice` raises the validation error of the first
failing line and returns the database completely unchanged: no product
quantity is modified and no invoice header or invoice-item row is
persisted. -/
theorem create_invoice_atomic_on_validation_failure
    (db : DB) (invoice_data : InvoiceCreate) (current_user : User) (now : Nat)
    (h : ∃ it ∈ invoice_data.items, (item_error db current_user it).isSome) :
    ∃ it ∈ invoice_data.items, ∃ e, item_error db current_user it = some e ∧
      create_invoice db invoice_data current_user now = (.error e, db) := by
  rcases first_item_error_isSome db current_user invoice_data.items h with
    ⟨it, hmem, e, he, hfe⟩
  refine ⟨it, hmem, e, he, ?_⟩
  have hv := (validate_invoice_items_error_iff db current_user invoice_data.items e).mpr hfe
  simp [create_invoice, hv]

/-- C5: when the first failing line of an invoice-creation request is one
whose referenced product exists and is sellable by the actor but has
`quantity < requested`, `create_invoice` fails with a 400
`InsufficientStock` error whose detail contains both the available and the
requested counts, and the database is returned unchanged (stock untouched,
no invoice row). -/
theorem create_invoice_insufficient_stock_error
    (db : DB) (invoice_data : InvoiceCreate) (current_user : User) (now : Nat)
    (pre post : List InvoiceItemCreate) (item : InvoiceItemCreate) (product : Product)
    (hsplit : invoice_data.items = pre ++ item :: post)
    (hpre : ∀ x ∈ pre, item_error db current_user x = none)
    (hp : get_product_by_id db item.product_id = some product)
    (hauth : current_user.role = UserRole.admin ∨ product.user_id = current_user.id)
    (hstock : product.quantity < item.quantity) :
    create_invoice db invoice_data current_user now =
      (.error ⟨400, "Insufficient stock for product " ++ product.name ++
        ". Available: " ++ toString product.quantity ++
        ", Requested: " ++ toString item.quantity⟩, db) := by
  have hnauth : ¬ (current_user.role ≠ UserRole.admin ∧ product.user_id ≠ current_user.id) := by
    rcases hauth with h | h <;> simp [h]
  have hie : item_error db current_user item =
      some ⟨400, "Insufficient stock for product " ++ product.name ++
        ". Available: " ++ toString product.quantity ++
        ", Requested: " ++ toString item.quantity⟩ := by
    simp [item_error, hp, hnauth, hstock]
  have hfe : first_item_error db current_user invoice_data.items =
      some ⟨400, "Insufficient stock for product " ++ product.name ++
        ". Available: " ++ toString product.quantity ++
        ", Requested: " ++ toString item.quantity⟩ := by
    rw [hsplit, first_item_error_append db current_user pre _ hpre]
    simp [first_item_error, hie]
  have hv := (validate_invoice_items_error_iff db current_user invoice_data.items _).mpr hfe
  simp [create_invoice, hv]

/-- C4: on every successful invoice creation, the invoice-item rows added
for the new invoice record, line by line and in order, the effective unit
price: the caller-supplied `unit_price` when it is truthy (non-zero),
otherwise the referenced product's current price — so an explicit 0
override results in the product's price being stored. -/
theorem create_invoice_effective_unit_price
    (db : DB) (invoice_data : InvoiceCreate) (current_user : User) (now : Nat)
    (inv : Invoice) (db' : DB)
    (h : create_invoice db invoice_data current_user now = (.ok inv, db')) :
    db'.invoice_items.map item_fields =
      db.invoice_items.map item_fields ++
        invoice_data.items.map (fun l =>
          (inv.id, l.product_id, l.quantity, effective_unit_price db l)) := by
  unfold create_invoice at h
  cases hv : validate_invoice_items db current_user invoice_data.items with
  | error e => rw [hv] at h; cases h
  | ok pr =>
    obtain ⟨vs, t⟩ := pr
    rw [hv] at h
    dsimp only at h
    injection h with h1 h2
    injection h1 with h1
    subst h1
    subst h2
    have hmap := (validate_invoice_items_ok db current_user _ vs t hv).1
    rw [foldl_apply_items]
    have hlift :
        vs.map (fun v => (db.next_invoice_id, v.product.id, v.quantity, v.unit_price)) =
          invoice_data.items.map (fun l =>
            (db.next_invoice_id, l.product_id, l.quantity, effective_unit_price db l)) := by
      have := congrArg
        (List.map (fun x : Nat × Int × Rat => (db.next_invoice_id, x.1, x.2.1, x.2.2))) hmap
      simpa [List.map_map, Function.comp] using this
    simpa using hlift

/-- C6: on every successful invoice creation, the stored invoice's
`total_price` is the sum over all request lines of the effective unit
price times the line quantity, and every product's stored quantity is
decreased by exactly the total quantity the request sells of it. -/
theorem create_invoice_total_and_stock_deduction
    (db : DB) (invoice_data : InvoiceCreate) (current_user : User) (now : Nat)
    (inv : Invoice) (db' : DB)
    (h : create_invoice db invoice_data current_user now = (.ok inv, db')) :
    inv.total_price = (invoice_data.items.map (line_total db)).sum ∧
    db'.products = db.products.map (fun p =>
      { p with quantity := p.quantity - items_sold invoice_data.items p.id }) := by
  unfold create_invoice at h
  cases hv : validate_invoice_items db current_user invoice_data.items with
  | error e => rw [hv] at h; cases h
  | ok pr =>
    obtain ⟨vs, t⟩ := pr
    rw [hv] at h
    dsimp only at h
    injection h with h1 h2
    injection h1 with h1
    subst h1
    subst h2
    rcases validate_invoice_items_ok db current_user _ vs t hv with ⟨hmap, hsum⟩
    constructor
    · exact hsum
    · rw [foldl_apply_products]
      have hsold : ∀ pid, sold_qty vs pid = items_sold invoice_data.items pid := by
        intro pid
        rw [sold_qty_eq_sold_triples, items_sold_eq_sold_triples db, hmap]
      apply List.map_congr_left
      intro p _
      rw [hsold]

/-- C7: invoice items are price snapshots: a product update (including a
price change) never changes any field of any stored invoice item — on
every path, success or failure, `update_product` leaves the invoice-item
table exactly as it was. -/
theorem update_product_preserves_invoice_items
    (db : DB) (product_id : Nat) (product_data : ProductUpdate) (current_user : User) :
    ((update_product db product_id product_data current_user).2).invoice_items =
      db.invoice_items := by
  unfold update_product
  dsimp only
  split
  · rfl
  · split
    · rfl
    · split
      · rfl
      · rfl

/-- C8: the ownership-checked retrieval: for every actor and resource
(carrying an owner id), `check_resource_ownership` fails 404 NotFound when
the resource is absent — regardless of the actor, showing the existence
check runs before the ownership check — fails 403 Forbidden when the
resource is present but the actor is neither its owner nor an admin, and
otherwise returns the resource unchanged. -/
theorem check_resource_ownership_characterization
    {α : Type} (current_user : User) (resource : Option α)
    (resource_name : String) (owner : α → Nat) :
    check_resource_ownership current_user resource resource_name
        (fun x => some (owner x)) =
      match resource with
      | none => .error ⟨404, resource_name.capitalize ++ " not found"⟩
      | some r =>
        if is_owner_or_admin current_user (owner r) then .ok r
        else .error ⟨403, "Not authorized to access this " ++ resource_name⟩ := by
  cases resource with
  | none => rfl
  | some r =>
    simp only [check_resource_ownership, check_ownership_or_admin, is_owner_or_admin]
    by_cases hrole : current_user.role = UserRole.admin
    · simp [hrole]
    · by_cases hid : current_user.id = owner r
      · simp [hrole, hid]
      · simp [hrole, hid]

/-- C3: evaluation of the code at a failing input.  The guard
`not is_owner_or_admin(current_user, current_user.id)` is always false (a
user trivially owns their own id), so the listing never applies the owner
filter: non-admin user 1 listing invoices receives user 2's invoice,
contrary to the function's own documentation ("regular users see only
their own"). -/
theorem get_all_invoices_returns_other_users_rows :
    userA.role ≠ UserRole.admin ∧ invB.user_id ≠ userA.id ∧
    get_all_invoices dbInvB userA 0 100 = .ok [invB] := by
  refine ⟨by decide, by decide, ?_⟩
  rfl

/-- C9: on an invoice search where both price bounds are supplied with
min > max, or both date bounds are supplied with start > end, the route
handler fails with the corresponding 400 validation error before the
query service is invoked, so no results are returned. -/
theorem route_search_invoices_invalid_range
    (db : DB) (start_date end_date : Option Nat) (min_price max_price : Option Rat)
    (customer_name : Option String) (current_user : User)
    (h : (∃ a b, min_price = some a ∧ max_price = some b ∧ a > b) ∨
         (∃ s e, start_date = some s ∧ end_date = some e ∧ s > e)) :
    route_search_invoices db start_date end_date min_price max_price
        customer_name current_user =
      .error ⟨400, "Minimum price cannot be greater than maximum price"⟩ ∨
    route_search_invoices db start_date end_date min_price max_price
        customer_name current_user =
      .error ⟨400, "Start date cannot be after end date"⟩ := by
  rcases h with ⟨a, b, ha, hb, hab⟩ | ⟨s, e, hs, he, hse⟩
  · subst ha; subst hb
    left
    simp [route_search_invoices, hab]
  · subst hs; subst he
    rcases min_price with _ | a
    · right
      simp [route_search_invoices, hse]
    · rcases max_price with _ | b
      · right
        simp [route_search_invoices, hse]
      · by_cases hab : a > b
        · left
          simp [route_search_invoices, hab]
        · right
          simp [route_search_invoices, hab, hse]

lemma validate_pagination_params_error (skip limit : Int)
    (h : skip < 0 ∨ limit ≤ 0 ∨ limit > 1000) :
    ∃ e, validate_pagination_params skip limit = .error e ∧ e.status_code = 400 := by
  by_cases h1 : skip < 0
  · exact ⟨⟨400, "Skip parameter must be non-negative"⟩,
      by simp [validate_pagination_params, h1], rfl⟩
  · have h2 : limit ≤ 0 ∨ limit > 1000 := by
      rcases h with h | h
      · exact absurd h h1
      · exact h
    exact ⟨⟨400, "Limit parameter must be between 1 and 1000"⟩,
      by simp [validate_pagination_params, h1, h2], rfl⟩

/-- C10 counterexample: the per-user invoice listing checks admin access
before validating pagination, so a non-admin caller with the invalid
`skip = -1` receives 403 Forbidden, not a 400 validation error. -/
theorem get_invoices_by_user_id_forbidden_before_pagination :
    ((-1 : Int) < 0) ∧
    get_invoices_by_user_id dbEmpty 5 userA (-1) 100 =
      .error ⟨403, "Admin access required to view other users' invoices"⟩ :=
  ⟨by decide, rfl⟩

/-- C10 (amended): with invalid pagination parameters (skip < 0 or limit
outside 1..1000), invoice listing and invoice search fail with a 400
validation error before querying; the per-user invoice listing does so for
admin callers, but checks admin access first, so a non-admin caller
receives 403 Forbidden instead. -/
theorem pagination_validation_amended
    (skip limit : Int) (h : skip < 0 ∨ limit ≤ 0 ∨ limit > 1000) :
    (∀ (db : DB) (u : User),
      ∃ e, get_all_invoices db u skip limit = .error e ∧ e.status_code = 400) ∧
    (∀ (db : DB) (filters : InvoiceSearchFilters) (u : User),
      ∃ e, search_invoices db filters u skip limit = .error e ∧ e.status_code = 400) ∧
    (∀ (db : DB) (user_id : Nat) (u : User), u.role = UserRole.admin →
      ∃ e, get_invoices_by_user_id db user_id u skip limit = .error e ∧
        e.status_code = 400) ∧
    (∀ (db : DB) (user_id : Nat) (u : User), u.role ≠ UserRole.admin →
      ∃ e, get_invoices_by_user_id db user_id u skip limit = .error e ∧
        e.status_code = 403) := by
  rcases validate_pagination_params_error skip limit h with ⟨e, he, h400⟩
  refine ⟨?_, ?_, ?_, ?_⟩
  · intro db u
    exact ⟨e, by simp [get_all_invoices, he], h400⟩
  · intro db filters u
    exact ⟨e, by simp [search_invoices, he], h400⟩
  · intro db user_id u hrole
    exact ⟨e, by simp [get_invoices_by_user_id, check_admin_access, hrole, he], h400⟩
  · intro db user_id u hrole
    exact ⟨⟨403, "Admin access required to view other users' invoices"⟩,
      by simp [get_invoices_by_user_id, check_admin_access, hrole], rfl⟩

/-! ### Witnesses -/

/-- Witness for C1: a request referencing the absent product id 2 fails
and leaves the one-product database untouched. -/
theorem create_invoice_atomic_on_validation_failure_witness :
    ∃ it ∈ (InvoiceCreate.mk none [badItem]).items, ∃ e,
      item_error (dbP 10) userA it = some e ∧
      create_invoice (dbP 10) (InvoiceCreate.mk none [badItem]) userA 0 =
        (.error e, dbP 10) :=
  create_invoice_atomic_on_validation_failure (dbP 10)
    (InvoiceCreate.mk none [badItem]) userA 0 ⟨badItem, by decide, by decide⟩

/-- Witness for C5: requesting 3 units of a product stocked with 2 fails
with the exact insufficient-stock message and an unchanged database. -/
theorem create_invoice_insufficient_stock_error_witness :
    create_invoice (dbP 2) (InvoiceCreate.mk none [reqItem3]) userA 0 =
      (.error ⟨400, "Insufficient stock for product " ++ (prodP 2).name ++
        ". Available: " ++ toString (prodP 2).quantity ++
        ", Requested: " ++ toString reqItem3.quantity⟩, dbP 2) :=
  create_invoice_insufficient_stock_error (dbP 2) (InvoiceCreate.mk none [reqItem3])
    userA 0 [] [] reqItem3 (prodP 2) rfl (by intro x hx; cases hx) rfl
    (Or.inr rfl) (by decide)

/-- Witness for C4: a line with the explicit zero unit price stores the
product's current price 5 on the created invoice item. -/
theorem create_invoice_effective_unit_price_witness :
    (DB.mk [prodP 7] [⟨1, 1, none, 15, 0⟩] [⟨1, 1, 1, 3, 5⟩] 2 2).invoice_items.map
        item_fields =
      (dbP 10).invoice_items.map item_fields ++
        (InvoiceCreate.mk none [reqItemZero]).items.map (fun l =>
          ((Invoice.mk 1 1 none 15 0).id, l.product_id, l.quantity,
            effective_unit_price (dbP 10) l)) :=
  create_invoice_effective_unit_price (dbP 10) (InvoiceCreate.mk none [reqItemZero])
    userA 0 (Invoice.mk 1 1 none 15 0)
    (DB.mk [prodP 7] [⟨1, 1, none, 15, 0⟩] [⟨1, 1, 1, 3, 5⟩] 2 2) (by
      simp [create_invoice, validate_invoice_items, get_product_by_id, dbP, prodP, userA,
        reqItemZero, apply_validated_item, List.find?]
      norm_num)

/-- Witness for C6: selling 3 units at effective price 5.00 from stock 10
yields total price 15.00 and remaining stock 7. -/
theorem create_invoice_total_and_stock_deduction_witness :
    (Invoice.mk 1 1 none 15 0).total_price =
      ((InvoiceCreate.mk none [reqItemZero]).items.map (line_total (dbP 10))).sum ∧
    (DB.mk [prodP 7] [⟨1, 1, none, 15, 0⟩] [⟨1, 1, 1, 3, 5⟩] 2 2).products =
      (dbP 10).products.map (fun p =>
        { p with
          quantity := p.quantity - items_sold (InvoiceCreate.mk none [reqItemZero]).items p.id }) :=
  create_invoice_total_and_stock_deduction (dbP 10) (InvoiceCreate.mk none [reqItemZero])
    userA 0 (Invoice.mk 1 1 none 15 0)
    (DB.mk [prodP 7] [⟨1, 1, none, 15, 0⟩] [⟨1, 1, 1, 3, 5⟩] 2 2) (by
      simp [create_invoice, validate_invoice_items, get_product_by_id, dbP, prodP, userA,
        reqItemZero, apply_validated_item, List.find?]
      norm_num)

/-- Witness for C9: a search supplying minimum price 10 and maximum price
5 fails with a 400 range error. -/
theorem route_search_invoices_invalid_range_witness :
    route_search_invoices dbEmpty none none (some 10) (some 5) none userA =
      .error ⟨400, "Minimum price cannot be greater than maximum price"⟩ ∨
    route_search_invoices dbEmpty none none (some 10) (some 5) none userA =
      .error ⟨400, "Start date cannot be after end date"⟩ :=
  route_search_invoices_invalid_range dbEmpty none none (some 10) (some 5) none userA
    (Or.inl ⟨10, 5, rfl, rfl, by norm_num⟩)

/-- Witness for C10 (amended): listing with skip = -1 fails with a 400
validation error. -/
theorem pagination_validation_amended_witness :
    ∃ e, get_all_invoices dbEmpty userA (-1) 100 = .error e ∧ e.status_code = 400 :=
  (pagination_validation_amended (-1) 100 (Or.inl (by decide))).1 dbEmpty userA

end SOP
